import Mathlib

/-!
Shallow embedding of the DIBBS daily-download pipeline (download.py) and
proofs about its specification claims.

Modelling conventions:
* byte strings are `List Nat` (each entry one byte value);
* a directory is a `FileMap`, an association list from file name to content;
  writing truncates any existing file of the same name;
* HTTP responses are supplied by an `Env` oracle: `none` models a transport
  failure (connection error or non-success status, raised before the
  temporary file is written), `some bs` models a fully streamed body `bs`;
* the ZIP parser is an oracle function of the downloaded archive bytes
  (`none` models a `BadZipFile` exception);
* the per-run log file is modelled only by whether `setup_logger` has
  created it (`FS.logCreated`); its textual content is not modelled;
* Python `str.lower` / `str.startswith` / `str.endswith` / `str.isdigit`
  are modelled at the character-list level (ASCII case folding, which is
  exact for the archive member names and prefixes involved; `isdigit`
  accepts Unicode decimal digits, modelled by the ASCII block plus the
  representative Arabic-Indic block U+0660..U+0669);
* the requests cookie jar is a list of entries maintained by `jar_set`,
  which mirrors RequestsCookieJar.set: a None value removes matching
  cookies and adds nothing, otherwise the entry overwrites any earlier
  one with the same (name, domain, path).
-/

set_option autoImplicit false

namespace Dibbs

/-! ### File maps (directories) -/

/-- A directory: association list from file name to file content (bytes). -/
abbrev FileMap := List (String × List Nat)

/-- Look a file up by name (first entry wins, as writes keep names unique). -/
def fsLookup : FileMap → String → Option (List Nat)
  | [], _ => none
  | e :: t, k => if e.1 = k then some e.2 else fsLookup t k

/-- Write (create or truncate) file `k` with content `v`. -/
def fsWrite (m : FileMap) (k : String) (v : List Nat) : FileMap :=
  (k, v) :: m.filter (fun e => !(e.1 == k))

/-- Delete file `k` (Path.unlink). -/
def fsRemove (m : FileMap) (k : String) : FileMap :=
  m.filter (fun e => !(e.1 == k))

/-- Atomic rename with overwrite (Path.replace). The source file exists at
every call site in the pipeline; a missing source is modelled as a no-op. -/
def fsRename (m : FileMap) (src dst : String) : FileMap :=
  match fsLookup m src with
  | some v => fsWrite (fsRemove m src) dst v
  | none => m

/-! ### Python string primitives -/

/-- Python str.lower, restricted to ASCII case folding. -/
def strLower (s : String) : String :=
  String.mk (s.data.map Char.toLower)

/-- Python str.startswith. -/
def strStartsWith (s p : String) : Bool :=
  p.data.isPrefixOf s.data

/-- Python str.endswith. -/
def strEndsWith (s p : String) : Bool :=
  p.data.isSuffixOf s.data

/-- Python str.isdigit accepts every Unicode character with the decimal
digit property, not only ASCII digits. The model covers the ASCII block
and, as a representative non-ASCII block, the Arabic-Indic digits
U+0660..U+0669; every other Unicode digit block behaves like that one for
the claims here. -/
def pyCharIsDigit (c : Char) : Bool :=
  c.isDigit || (0x660 ≤ c.toNat && c.toNat ≤ 0x669)

/-- Python str.isdigit: nonempty and every character a decimal digit. -/
def pyIsDigit (s : String) : Bool :=
  !(s == "") && s.data.all pyCharIsDigit

/-- Python truthiness of an optional string: present and nonempty. -/
def pyTruthy : Option String → Bool
  | some s => !(s == "")
  | none => false

/-! ### DateResolver (resolve_date_tag, lines 39-46) -/

/-- Two-digit zero-padded decimal rendering, as produced by strftime for the
fields of a calendar date (all of which are below 100). -/
def pad2 (n : Nat) : String :=
  String.mk [Nat.digitChar (n / 10 % 10), Nat.digitChar (n % 10)]

/-- The strftime "%y%m%d" rendering of the already-computed "yesterday in
America/Los_Angeles" civil date (yy is the full year, reduced mod 100 by
the %y directive). -/
def yesterdayTag (yy mm dd : Nat) : String :=
  pad2 yy ++ pad2 mm ++ pad2 dd

/-- resolve_date_tag. The yy/mm/dd arguments are the components of the
civil date "now in America/Los_Angeles minus one day", supplied by the
environment (datetime arithmetic is external). Note the Python guard
`if cli_date:` is falsy for the empty string. -/
def resolve_date_tag (cli_date : Option String) (yy mm dd : Nat) :
    Except String String :=
  if pyTruthy cli_date then
    let s := cli_date.getD ""
    if (s.length != 6) || !(pyIsDigit s) then
      Except.error "--date must be YYMMDD, e.g., 250903"
    else
      Except.ok s
  else
    Except.ok (yesterdayTag yy mm dd)

/-! ### Content sniff (is_probably_html, lines 77-79) -/

/-- Bytes stripped by Python bytes.lstrip(): ASCII whitespace. -/
def isPySpace (b : Nat) : Bool :=
  b == 32 || b == 9 || b == 10 || b == 13 || b == 11 || b == 12

/-- is_probably_html: the sample with leading whitespace stripped starts
with the byte of "<" (60), or with "<!" (the second test is subsumed). -/
def is_probably_html (sample : List Nat) : Bool :=
  let s := sample.dropWhile isPySpace
  List.isPrefixOf [60] s || List.isPrefixOf [60, 33] s

/-! ### SessionBuilder (cookies_from_storage_state, lines 53-70) -/

/-- One cookie record of the storage_state JSON; a field absent from the
JSON object is `none` (Python dict.get returns None). -/
structure CookieRec where
  name : Option String
  value : Option String
  domain : Option String
  path : Option String
  secure : Option Bool
  httpOnly : Option Bool
  sameSite : Option String
deriving Repr, DecidableEq

/-- The parsed storage_state document: `none` models a JSON object without
a "cookies" key (state.get("cookies", []) then yields the empty list). -/
structure StorageState where
  cookies : Option (List CookieRec)
deriving Repr, DecidableEq

/-- One entry of the requests cookie jar as populated by jar.set. -/
structure JarEntry where
  name : Option String
  value : Option String
  domain : Option String
  path : String
  secure : Bool
  httpOnly : Bool
  sameSite : String
deriving Repr, DecidableEq

/-- RequestsCookieJar.set as implemented in requests cookies.py: a None
value removes the matching cookies (same name; same domain and path when
those are supplied, and the caller always supplies a path) and adds
nothing; otherwise the cookie is stored keyed by (name, domain, path),
overwriting any earlier entry with that key. New entries are appended. -/
def jar_set (jar : List JarEntry) (name value domain : Option String)
    (path : String) (secure httpOnly : Bool) (sameSite : String) :
    List JarEntry :=
  match value with
  | none =>
    jar.filter (fun e =>
      !(e.name == name && (domain == none || e.domain == domain) &&
        e.path == path))
  | some v =>
    jar.filter (fun e =>
      !(e.name == name && e.domain == domain && e.path == path)) ++
      [⟨name, some v, domain, path, secure, httpOnly, sameSite⟩]

/-- The jar entry a cookie record produces when its value is present:
path defaults to "/", secure to False, HttpOnly and SameSite carried in
the rest dict. -/
def recEntry (c : CookieRec) : JarEntry :=
  ⟨c.name, c.value, c.domain, c.path.getD "/", c.secure.getD false,
    c.httpOnly.getD false, c.sameSite.getD ""⟩

/-- cookies_from_storage_state: one jar.set call per cookie record of the
document, in order, starting from the empty jar. -/
def cookies_from_storage_state (state : StorageState) : List JarEntry :=
  (state.cookies.getD []).foldl
    (fun jar c => jar_set jar c.name c.value c.domain (c.path.getD "/")
      (c.secure.getD false) (c.httpOnly.getD false) (c.sameSite.getD ""))
    []

/-! ### Fetcher (download_to, lines 90-102) -/

/-- download_to, writing to file `tmp` of directory `st`. The oracle
response `none` models a transport failure raised before the temporary
file is opened (connection error or raise_for_status); `some bs` models a
fully streamed body `bs` written to `tmp` in chunks. After writing, the
first 512 bytes are read back and sniffed; an HTML-looking body raises
with the temporary file left in place, so the error carries the updated
directory. -/
def download_to (st : FileMap) (tmp : String) (resp : Option (List Nat)) :
    Except (String × FileMap) FileMap :=
  match resp with
  | none => Except.error ("transport error", st)
  | some bs =>
    let st2 := fsWrite st tmp bs
    if is_probably_html (bs.take 512) then
      Except.error ("Download appears to be HTML (likely consent page).", st2)
    else
      Except.ok st2

/-! ### ArchiveExtractor (extract_members, lines 109-129) -/

/-- The member test of line 121: the entry name lower-cased starts with
the prefix exactly as given and lower-cased ends with ".txt". -/
def memberMatches (pfx : String) (n : String) : Bool :=
  strStartsWith (strLower n) pfx && strEndsWith (strLower n) ".txt"

/-- extract_members over the parsed archive `entries` (name, content
pairs; zf.namelist() is the name projection). For each requested
(logical key, prefix) pair in order: find the first matching member name,
fail with the line-123 message if none, else copy that member content
verbatim to `<prefix><date_tag>.txt` in the staging directory. Failure
keeps the files extracted so far, so the error carries the directory.
Member names opened by zf.open are looked up by first occurrence (the
archives in this pipeline have distinct member names). -/
def extract_members (entries : List (String × List Nat)) (zipName : String)
    (staging : FileMap) (wanted_prefixes : List (String × String))
    (date_tag : String) :
    Except (String × FileMap) (List (String × String) × FileMap) :=
  match wanted_prefixes with
  | [] => Except.ok ([], staging)
  | (key, pfx) :: rest =>
    match (entries.map Prod.fst).find? (memberMatches pfx) with
    | none =>
      Except.error ("Could not find " ++ pfx ++ "*.txt in ZIP " ++ zipName,
        staging)
    | some member =>
      let content := (fsLookup entries member).getD []
      let target := pfx ++ date_tag ++ ".txt"
      match extract_members entries zipName (fsWrite staging target content)
          rest date_tag with
      | Except.ok (out, st) => Except.ok ((key, target) :: out, st)
      | Except.error e => Except.error e

/-! ### Orchestrator (main, lines 136-250, and the __main__ guard) -/

/-- The run environment: CLI arguments, configuration values, and the
oracles for the external world (filesystem preconditions, HTTP bodies,
ZIP parsing, the current date). -/
structure Env where
  cli_date : Option String
  /-- components of yesterday in America/Los_Angeles -/
  yy : Nat
  mm : Nat
  dd : Nat
  /-- whether the cookies.json snapshot file exists -/
  cookiesExist : Bool
  min_zip_bytes : Nat
  min_in_bytes : Nat
  /-- body of GET on the BQ ZIP url, none = transport failure -/
  bq_resp : Option (List Nat)
  /-- ZIP parser oracle: entries of the archive with those bytes -/
  parse_zip : List Nat → Option (List (String × List Nat))
  /-- body of GET on the primary IN url -/
  in_resp_primary : Option (List Nat)
  /-- body of GET on the fallback IN url -/
  in_resp_fallback : Option (List Nat)

/-- Observable filesystem state of a run: the staging directory, the
output directory, and whether setup_logger created the per-run log file. -/
structure FS where
  staging : FileMap
  output : FileMap
  logCreated : Bool
deriving Repr, DecidableEq

/-- The standalone-file fallback loop (lines 214-235): for each candidate
response in order, download to the shared temp name; on any exception
(transport, HTML sniff, or size below min_in) delete the temp file if
present and try the next; on success rename temp to final and stop. When
the list is exhausted, raise the both-URLs-failed error. -/
def try_in_urls (st : FileMap) (tmp fin : String) (min_in : Nat) :
    List (Option (List Nat)) → Except (String × FileMap) FileMap
  | [] =>
    Except.error ("Failed to download IN via both primary and fallback URLs.",
      st)
  | r :: rest =>
    match download_to st tmp r with
    | Except.error (_, st2) => try_in_urls (fsRemove st2 tmp) tmp fin min_in rest
    | Except.ok st2 =>
      if ((fsLookup st2 tmp).getD []).length < min_in then
        try_in_urls (fsRemove st2 tmp) tmp fin min_in rest
      else
        Except.ok (fsRename st2 tmp fin)

/-- Move one staged file into the output directory (lines 244-248):
delete any pre-existing output file of that name, then rename. -/
def promote (st out : FileMap) (name : String) : FileMap × FileMap :=
  (fsRemove st name, fsWrite out name ((fsLookup st name).getD []))

/-- The orchestrator together with the __main__ guard, returning the
process exit status and the final filesystem state. Config loading,
directory creation and logger setup always succeed (config is out of
scope); setup_logger creates the log file. An exception escaping main is
caught by the __main__ guard, printed to stderr, and mapped to exit 1;
the missing-cookies check calls sys.exit(2) directly. -/
def main (env : Env) (fs0 : FS) : Nat × FS :=
  match resolve_date_tag env.cli_date env.yy env.mm env.dd with
  | Except.error _ => (1, fs0)
  | Except.ok date_tag =>
    let fs1 : FS := { fs0 with logCreated := true }
    if !env.cookiesExist then (2, fs1)
    else
      let tmp_zip := "bq" ++ date_tag ++ ".zip.part"
      let final_zip := "bq" ++ date_tag ++ ".zip"
      match download_to fs1.staging tmp_zip env.bq_resp with
      | Except.error (_, st) => (1, { fs1 with staging := st })
      | Except.ok st2 =>
        if ((fsLookup st2 tmp_zip).getD []).length < env.min_zip_bytes then
          (1, { fs1 with staging := st2 })
        else
          let st3 := fsRename st2 tmp_zip final_zip
          match env.parse_zip ((fsLookup st3 final_zip).getD []) with
          | none => (1, { fs1 with staging := st3 })
          | some entries =>
            match extract_members entries final_zip st3
                [("bq", "bq"), ("as", "as")] date_tag with
            | Except.error (_, st4) => (1, { fs1 with staging := st4 })
            | Except.ok (out, st4) =>
              let bq_txt := (List.lookup "bq" out).getD ""
              let as_txt := (List.lookup "as" out).getD ""
              let in_tmp := "in" ++ date_tag ++ ".txt.part"
              let in_final := "in" ++ date_tag ++ ".txt"
              match try_in_urls st4 in_tmp in_final env.min_in_bytes
                  [env.in_resp_primary, env.in_resp_fallback] with
              | Except.error (_, st5) => (1, { fs1 with staging := st5 })
              | Except.ok st5 =>
                let p1 := promote st5 fs1.output bq_txt
                let p2 := promote p1.1 p1.2 as_txt
                let p3 := promote p2.1 p2.2 in_final
                (0, { staging := p3.1, output := p3.2, logCreated := true })

/-! ### Auxiliary definitions for the claims -/

/-- A candidate attempt of the IN loop fails when the response is a
transport error, sniffs as HTML, or is below the size threshold. -/
def attempt_fails (min_in : Nat) : Option (List Nat) → Bool
  | none => true
  | some bs => is_probably_html (bs.take 512) || decide (bs.length < min_in)

/-- A storage-state document with a single sparse cookie record (no path,
no secure field). -/
def sparseCookieDoc : StorageState :=
  ⟨some [⟨some "c", some "v", none, none, none, none, none⟩]⟩

/-- An empty filesystem with no log file. -/
def fsEmpty : FS := ⟨[], [], false⟩

/-- An environment in which every stage succeeds: explicit date override,
cookies present, a non-HTML archive body above the threshold whose parse
yields one bq member and one as member, and a primary IN body above the
threshold. -/
def envOkRun : Env :=
  { cli_date := some "250903"
    yy := 25
    mm := 9
    dd := 3
    cookiesExist := true
    min_zip_bytes := 1
    min_in_bytes := 1
    bq_resp := some [80, 75, 3, 4]
    parse_zip := fun _ => some [("BQ123.TXT", [65, 66]), ("as456.txt", [67])]
    in_resp_primary := some [68, 69]
    in_resp_fallback := none }

/-- The successful environment with the cookies.json snapshot missing. -/
def envNoCookies : Env := { envOkRun with cookiesExist := false }

/-- The successful environment with a malformed date override. -/
def envBadDate : Env := { envOkRun with cli_date := some "9/3/25" }

/-! ### File-map lemmas -/

theorem fsLookup_filter_ne (m : FileMap) (k k2 : String) (h : k ≠ k2) :
    fsLookup (m.filter (fun e => !(e.1 == k))) k2 = fsLookup m k2 := by
  induction m with
  | nil => rfl
  | cons e t ih =>
    rw [List.filter_cons]
    by_cases he : e.1 = k
    · rw [show (!(e.1 == k)) = false by simpa using he]
      simp only [if_neg (Bool.false_ne_true), fsLookup]
      rw [if_neg (by rw [he]; exact h), ih]
    · rw [show (!(e.1 == k)) = true by simpa using he]
      simp only [if_pos rfl, fsLookup, ih]

@[simp] theorem fsLookup_fsWrite_self (m : FileMap) (k : String)
    (v : List Nat) : fsLookup (fsWrite m k v) k = some v := by
  simp [fsLookup, fsWrite]

theorem fsLookup_fsWrite_ne (m : FileMap) (k k2 : String) (v : List Nat)
    (h : k ≠ k2) : fsLookup (fsWrite m k v) k2 = fsLookup m k2 := by
  simp only [fsWrite, fsLookup]
  rw [if_neg h]
  exact fsLookup_filter_ne m k k2 h

@[simp] theorem fsLookup_fsRemove_self (m : FileMap) (k : String) :
    fsLookup (fsRemove m k) k = none := by
  induction m with
  | nil => rfl
  | cons e t ih =>
    simp only [fsRemove, List.filter_cons] at ih ⊢
    by_cases he : e.1 = k
    · rw [show (!(e.1 == k)) = false by simpa using he]
      simpa using ih
    · rw [show (!(e.1 == k)) = true by simpa using he]
      simp only [if_pos rfl, fsLookup, if_neg he]
      exact ih

theorem fsLookup_fsRemove_ne (m : FileMap) (k k2 : String) (h : k ≠ k2) :
    fsLookup (fsRemove m k) k2 = fsLookup m k2 :=
  fsLookup_filter_ne m k k2 h

/-! ### Date-tag lemmas -/

theorem digitChar_isDigit (n : Nat) (h : n < 10) :
    (Nat.digitChar n).isDigit = true := by
  interval_cases n <;> decide

theorem pad2_data (n : Nat) :
    (pad2 n).data = [Nat.digitChar (n / 10 % 10), Nat.digitChar (n % 10)] :=
  rfl

theorem yesterdayTag_data (yy mm dd : Nat) :
    (yesterdayTag yy mm dd).data =
      [Nat.digitChar (yy / 10 % 10), Nat.digitChar (yy % 10),
       Nat.digitChar (mm / 10 % 10), Nat.digitChar (mm % 10),
       Nat.digitChar (dd / 10 % 10), Nat.digitChar (dd % 10)] := by
  simp [yesterdayTag, String.data_append, pad2_data]

theorem yesterdayTag_length (yy mm dd : Nat) :
    (yesterdayTag yy mm dd).length = 6 := by
  show (yesterdayTag yy mm dd).data.length = 6
  rw [yesterdayTag_data]
  rfl

theorem yesterdayTag_digits (yy mm dd : Nat) :
    (yesterdayTag yy mm dd).data.all Char.isDigit = true := by
  rw [yesterdayTag_data]
  simp only [List.all_cons, List.all_nil, Bool.and_eq_true]
  refine ⟨?_, ?_, ?_, ?_, ?_, ?_, trivial⟩ <;>
    exact digitChar_isDigit _ (Nat.mod_lt _ (by omega))

/-! ### C5: supplied date override validation -/

/-- C5 counterexample: the claim says every supplied string that is not a
valid 6-digit numeric string, including the empty string, fails with a
FormatError. The code guard `if cli_date:` is falsy for the empty string,
so a supplied empty string falls through to the yesterday computation and
succeeds instead of failing. -/
theorem C5_counterexample :
    resolve_date_tag (some "") 25 9 3 = Except.ok "250903" := rfl

/-- C5 (amended): a supplied nonempty 6-digit numeric string is returned
unchanged; a supplied nonempty string of a different length or containing
a non-digit fails with the FormatError; a supplied empty string is
treated as if no override was given and yields the yesterday tag. -/
theorem C5_date_override (s : String) (yy mm dd : Nat) :
    (resolve_date_tag (some "") yy mm dd =
      Except.ok (yesterdayTag yy mm dd)) ∧
    (s ≠ "" → s.length = 6 → s.data.all pyCharIsDigit = true →
      resolve_date_tag (some s) yy mm dd = Except.ok s) ∧
    (s ≠ "" → (s.length ≠ 6 ∨ s.data.all pyCharIsDigit = false) →
      resolve_date_tag (some s) yy mm dd =
        Except.error "--date must be YYMMDD, e.g., 250903") := by
  refine ⟨rfl, ?_, ?_⟩
  · intro hne hlen hdig
    simp [resolve_date_tag, pyTruthy, pyIsDigit, hne, hlen, hdig]
  · intro hne hbad
    rcases hbad with hlen | hdig
    · simp [resolve_date_tag, pyTruthy, pyIsDigit, hne, hlen]
    · simp [resolve_date_tag, pyTruthy, pyIsDigit, hne, hdig]

/-- C5 witness: the amended statement applied at the concrete inputs
"250903" (valid, returned unchanged) and "25x903" (non-digit, fails). -/
theorem C5_witness :
    resolve_date_tag (some "250903") 1 2 3 = Except.ok "250903" ∧
    resolve_date_tag (some "25x903") 1 2 3 =
      Except.error "--date must be YYMMDD, e.g., 250903" :=
  ⟨(C5_date_override "250903" 1 2 3).2.1 (by decide) (by decide) (by decide),
   (C5_date_override "25x903" 1 2 3).2.2 (by decide) (Or.inr (by decide))⟩

/-! ### C6: content classification -/

/-- C6: for every byte sequence, is_probably_html flags it as markup if
and only if the sequence with leading ASCII whitespace stripped starts
with the byte of "<" (60); in particular the empty sequence is not
markup. -/
theorem C6_markup_iff (bs : List Nat) :
    (is_probably_html bs = true ↔
      (bs.dropWhile isPySpace).head? = some 60) ∧
    is_probably_html [] = false := by
  refine ⟨?_, rfl⟩
  simp only [is_probably_html]
  cases hd : bs.dropWhile isPySpace with
  | nil => simp [List.isPrefixOf]
  | cons b t =>
    by_cases hb : b = 60
    · simp [List.isPrefixOf, hb]
    · have hb2 : ¬(60 = b) := fun h2 => hb h2.symm
      simp [List.isPrefixOf, hb, hb2]

/-! ### C8: every resolved date tag is six digits -/

theorem yesterdayTag_pydigits (yy mm dd : Nat) :
    (yesterdayTag yy mm dd).data.all pyCharIsDigit = true := by
  have h := yesterdayTag_digits yy mm dd
  rw [List.all_eq_true] at h ⊢
  intro c hc
  simp [pyCharIsDigit, h c hc]

/-- C8 counterexample: the claim says every returned tag is exactly 6
ASCII digit characters. Python str.isdigit accepts non-ASCII Unicode
decimal digits, so the override of six Arabic-Indic digits passes the
line-41 validation and is returned unchanged: a 6-character tag none of
whose characters is an ASCII digit. -/
theorem C8_counterexample :
    resolve_date_tag (some "١٢٣٤٥٦") 1 1 1 = Except.ok "١٢٣٤٥٦" ∧
    "١٢٣٤٥٦".length = 6 ∧
    "١٢٣٤٥٦".data.all Char.isDigit = false := by
  refine ⟨rfl, rfl, by decide⟩

/-- C8 (amended): every tag returned by resolve_date_tag has length 6
and consists of characters Python str.isdigit accepts (Unicode decimal
digits); the computed yesterday tag is moreover all ASCII digits, but a
supplied override may consist of non-ASCII digits, so the returned tag
need not be ASCII. -/
theorem C8_tag_six_digits (cli : Option String) (yy mm dd : Nat)
    (t : String) (h : resolve_date_tag cli yy mm dd = Except.ok t) :
    t.length = 6 ∧ t.data.all pyCharIsDigit = true := by
  simp only [resolve_date_tag] at h
  split at h
  · split at h
    · exact absurd h (by simp)
    · rename_i hcond
      rw [Except.ok.injEq] at h
      subst h
      simp only [Bool.or_eq_true, not_or, bne_iff_ne, ne_eq, not_not,
        Bool.not_eq_true', Bool.not_eq_false] at hcond
      refine ⟨hcond.1, ?_⟩
      have := hcond.2
      simp only [pyIsDigit, Bool.and_eq_true] at this
      exact this.2
  · rw [Except.ok.injEq] at h
    subst h
    exact ⟨yesterdayTag_length yy mm dd, yesterdayTag_pydigits yy mm dd⟩

/-- C8 witness: the amended theorem applied to the Arabic-Indic override
and to a run with no override (yesterday = 2025-09-03). -/
theorem C8_witness :
    ("١٢٣٤٥٦".length = 6 ∧ "١٢٣٤٥٦".data.all pyCharIsDigit = true) ∧
    ((yesterdayTag 25 9 3).length = 6 ∧
      (yesterdayTag 25 9 3).data.all pyCharIsDigit = true) :=
  ⟨C8_tag_six_digits (some "١٢٣٤٥٦") 0 0 0 "١٢٣٤٥٦" rfl,
   C8_tag_six_digits none 25 9 3 (yesterdayTag 25 9 3) rfl⟩

/-! ### C10: cookie jar construction tolerates absent or sparse records -/

theorem jar_set_length (jar : List JarEntry) (n v d : Option String)
    (p : String) (s ho : Bool) (ss : String) :
    (jar_set jar n v d p s ho ss).length ≤ jar.length + 1 := by
  cases v with
  | none =>
    exact le_trans (List.length_filter_le _ jar) (Nat.le_succ _)
  | some v0 =>
    simp only [jar_set, List.length_append, List.length_singleton]
    exact Nat.add_le_add_right (List.length_filter_le _ jar) 1

theorem jar_set_mem (jar : List JarEntry) (n v d : Option String)
    (p : String) (s ho : Bool) (ss : String) (e : JarEntry)
    (h : e ∈ jar_set jar n v d p s ho ss) :
    e ∈ jar ∨ ∃ v0, v = some v0 ∧ e = ⟨n, some v0, d, p, s, ho, ss⟩ := by
  cases v with
  | none => exact Or.inl (List.mem_of_mem_filter h)
  | some v0 =>
    rcases List.mem_append.mp h with h2 | h2
    · exact Or.inl (List.mem_of_mem_filter h2)
    · exact Or.inr ⟨v0, rfl, by simpa using h2⟩

/-- The fold of jar_set over the records grows the jar by at most one
entry per record. -/
theorem cookies_fold_length (recs : List CookieRec) (jar : List JarEntry) :
    (recs.foldl
      (fun j c => jar_set j c.name c.value c.domain (c.path.getD "/")
        (c.secure.getD false) (c.httpOnly.getD false)
        (c.sameSite.getD "")) jar).length ≤ jar.length + recs.length := by
  induction recs generalizing jar with
  | nil => simp
  | cons c t ih =>
    simp only [List.foldl_cons, List.length_cons]
    have h1 := ih (jar_set jar c.name c.value c.domain (c.path.getD "/")
      (c.secure.getD false) (c.httpOnly.getD false) (c.sameSite.getD ""))
    have h2 := jar_set_length jar c.name c.value c.domain (c.path.getD "/")
      (c.secure.getD false) (c.httpOnly.getD false) (c.sameSite.getD "")
    omega

/-- Every entry of the folded jar is either inherited or produced from
one of the records by defaulting path to "/" and secure to false. -/
theorem cookies_fold_mem (recs : List CookieRec) (jar : List JarEntry)
    (e : JarEntry)
    (h : e ∈ recs.foldl
      (fun j c => jar_set j c.name c.value c.domain (c.path.getD "/")
        (c.secure.getD false) (c.httpOnly.getD false)
        (c.sameSite.getD "")) jar) :
    e ∈ jar ∨ ∃ c ∈ recs, e = recEntry c := by
  induction recs generalizing jar with
  | nil => exact Or.inl h
  | cons c t ih =>
    rcases ih _ h with h2 | ⟨c2, hc2, he⟩
    · rcases jar_set_mem _ _ _ _ _ _ _ _ _ h2 with h3 | ⟨v0, hv, he⟩
      · exact Or.inl h3
      · refine Or.inr ⟨c, List.mem_cons_self c t, ?_⟩
        rw [he, recEntry, hv]
    · exact Or.inr ⟨c2, List.mem_cons_of_mem c hc2, he⟩

/-- C10 counterexample: the claim says the jar contains exactly one entry
per record of the cookies list. RequestsCookieJar.set with a None value
removes cookies and adds nothing, so the document whose single record has
no value field yields the empty jar: one record, zero entries. -/
theorem C10_counterexample :
    cookies_from_storage_state
        ⟨some [⟨some "c", none, none, none, none, none, none⟩]⟩ = [] ∧
    ([(⟨some "c", none, none, none, none, none, none⟩ : CookieRec)]).length
      = 1 :=
  ⟨rfl, rfl⟩

/-- C10 (amended): for every parsed storage-state document the
conversion never fails: an absent "cookies" key (or an empty list)
yields the empty jar; the jar holds at most one entry per record; every
entry comes from some record with path defaulting to "/" and secure to
false when those fields are missing; and a single record whose value is
present yields exactly its one entry. A record without a value adds
nothing (jar.set removes instead), so "exactly one entry per record"
does not hold. -/
theorem C10_cookies_total (st : StorageState) :
    ((st.cookies = none ∨ st.cookies = some []) →
      cookies_from_storage_state st = []) ∧
    (cookies_from_storage_state st).length ≤ (st.cookies.getD []).length ∧
    (∀ e, e ∈ cookies_from_storage_state st →
      ∃ c ∈ st.cookies.getD [], e = recEntry c) ∧
    (∀ c v, st.cookies = some [c] → c.value = some v →
      cookies_from_storage_state st = [recEntry c]) := by
  refine ⟨?_, ?_, ?_, ?_⟩
  · rintro (h | h) <;> simp [cookies_from_storage_state, h]
  · simpa using cookies_fold_length (st.cookies.getD []) []
  · intro e he
    rcases cookies_fold_mem _ _ _ he with h | h
    · cases h
    · exact h
  · intro c v h hv
    simp [cookies_from_storage_state, h, jar_set, hv, recEntry]

/-- C10 witness: the amended theorem applied to the sparse one-record
document, whose record has a value but no path and no secure field. -/
theorem C10_witness :
    cookies_from_storage_state sparseCookieDoc =
      [⟨some "c", some "v", none, "/", false, false, ""⟩] ∧
    (cookies_from_storage_state sparseCookieDoc).length ≤ 1 := by
  have h := C10_cookies_total sparseCookieDoc
  constructor
  · have h4 := h.2.2.2 ⟨some "c", some "v", none, none, none, none, none⟩
      "v" rfl rfl
    simpa [recEntry] using h4
  · simpa [sparseCookieDoc] using h.2.1

/-! ### Extraction helper lemmas -/

theorem find?_eq_of_mem_unique {α : Type} (p : α → Bool) (l : List α) (a : α)
    (ha : a ∈ l) (hpa : p a = true)
    (huniq : ∀ b ∈ l, p b = true → b = a) : l.find? p = some a := by
  induction l with
  | nil => cases ha
  | cons x t ih =>
    by_cases hx : p x = true
    · rw [List.find?_cons_of_pos _ hx, huniq x (List.mem_cons_self x t) hx]
    · rw [List.find?_cons_of_neg _ hx]
      rcases List.mem_cons.mp ha with h | h
      · exact absurd (h ▸ hpa) hx
      · exact ih h (fun b hb hpb => huniq b (List.mem_cons_of_mem _ hb) hpb)

theorem find?_append_first {α : Type} (p : α → Bool) (l1 : List α) (a : α)
    (l2 : List α) (h1 : ∀ x ∈ l1, p x = false) (ha : p a = true) :
    (l1 ++ a :: l2).find? p = some a := by
  induction l1 with
  | nil => simpa using List.find?_cons_of_pos l2 ha
  | cons x t ih =>
    rw [List.cons_append,
      List.find?_cons_of_neg _ (by simp [h1 x (List.mem_cons_self x t)])]
    exact ih (fun y hy => h1 y (List.mem_cons_of_mem _ hy))

theorem fsLookup_append_first (l1 : FileMap) (m : String) (c : List Nat)
    (l2 : FileMap) (h1 : ∀ p ∈ l1, p.1 ≠ m) :
    fsLookup (l1 ++ (m, c) :: l2) m = some c := by
  induction l1 with
  | nil => simp [fsLookup]
  | cons x t ih =>
    rw [List.cons_append]
    simp only [fsLookup]
    rw [if_neg (h1 x (List.mem_cons_self x t))]
    exact ih (fun y hy => h1 y (List.mem_cons_of_mem _ hy))

/-- Successful single-key extraction, fully characterised by the first
matching member name and its content. -/
theorem extract_single (entries : List (String × List Nat)) (zn : String)
    (st : FileMap) (key pfx tag m : String) (c : List Nat)
    (hfind : (entries.map Prod.fst).find? (memberMatches pfx) = some m)
    (hlook : fsLookup entries m = some c) :
    extract_members entries zn st [(key, pfx)] tag =
      Except.ok ([(key, pfx ++ tag ++ ".txt")],
        fsWrite st (pfx ++ tag ++ ".txt") c) := by
  simp [extract_members, hfind, hlook]

/-! ### C3: extraction round-trip -/

/-- C3: for every archive in which BQ123.TXT is the unique member whose
lower-cased name starts with "bq" and ends with ".txt", extraction with
logical key "bq", prefix "bq" and date tag 250903 succeeds, writes the
file bq250903.txt into staging with content byte-for-byte identical to
that member, and returns that path under the logical key. -/
theorem C3_round_trip (entries : List (String × List Nat)) (zn : String)
    (staging : FileMap) (c : List Nat)
    (hmem : "BQ123.TXT" ∈ entries.map Prod.fst)
    (hlook : fsLookup entries "BQ123.TXT" = some c)
    (huniq : ∀ n ∈ entries.map Prod.fst, memberMatches "bq" n = true →
      n = "BQ123.TXT") :
    extract_members entries zn staging [("bq", "bq")] "250903" =
      Except.ok ([("bq", "bq250903.txt")],
        fsWrite staging "bq250903.txt" c) ∧
    fsLookup (fsWrite staging "bq250903.txt" c) "bq250903.txt" = some c := by
  have hfind := find?_eq_of_mem_unique (memberMatches "bq") _ _ hmem
    (by decide) huniq
  have h1 := extract_single entries zn staging "bq" "bq" "250903"
    "BQ123.TXT" c hfind hlook
  have hname : ("bq" ++ "250903" ++ ".txt" : String) = "bq250903.txt" := rfl
  rw [hname] at h1
  exact ⟨h1, fsLookup_fsWrite_self staging "bq250903.txt" c⟩

/-- C3 witness: the theorem applied to the archive with the single member
BQ123.TXT containing bytes 72 105. -/
theorem C3_witness :
    extract_members [("BQ123.TXT", [72, 105])] "bq250903.zip" []
        [("bq", "bq")] "250903" =
      Except.ok ([("bq", "bq250903.txt")],
        fsWrite [] "bq250903.txt" [72, 105]) ∧
    fsLookup (fsWrite [] "bq250903.txt" [72, 105]) "bq250903.txt" =
      some [72, 105] :=
  C3_round_trip [("BQ123.TXT", [72, 105])] "bq250903.zip" [] [72, 105]
    (by decide) rfl (by decide)

/-! ### C4: member matching success and failure -/

/-- C4 counterexample: the claim says matching is case-insensitive in the
prefix as well, so a prefix containing uppercase letters still matches an
entry that differs from it only in case. The code lower-cases only the
entry name (line 121), never the prefix, so prefix "BQ" fails against the
member bq123.txt even though the two differ only in case, and extraction
raises the NotFoundError instead of succeeding. -/
theorem C4_counterexample :
    strStartsWith (strLower "bq123.txt") (strLower "BQ") = true ∧
    strEndsWith (strLower "bq123.txt") ".txt" = true ∧
    extract_members [("bq123.txt", [49])] "bq.zip" [] [("k", "BQ")]
        "250903" =
      Except.error ("Could not find BQ*.txt in ZIP bq.zip", []) :=
  ⟨by decide, by decide, rfl⟩

/-- C4 (amended): for every archive, prefix and requested logical key,
extract_members succeeds for that key if and only if some entry name
lower-cased starts with the prefix exactly as written and lower-cased
ends with ".txt"; when no entry matches it fails with the NotFoundError
naming the missing prefix. A prefix containing an uppercase letter never
matches, because only the entry name is lower-cased. -/
theorem C4_match_iff (entries : List (String × List Nat)) (zn : String)
    (st : FileMap) (key pfx tag : String) :
    ((∃ n ∈ entries.map Prod.fst, memberMatches pfx n = true) ↔
      ∃ r, extract_members entries zn st [(key, pfx)] tag = Except.ok r) ∧
    ((∀ n ∈ entries.map Prod.fst, memberMatches pfx n = false) →
      extract_members entries zn st [(key, pfx)] tag =
        Except.error ("Could not find " ++ pfx ++ "*.txt in ZIP " ++ zn,
          st)) := by
  cases hfind : (entries.map Prod.fst).find? (memberMatches pfx) with
  | none =>
    have hnone := List.find?_eq_none.mp hfind
    refine ⟨⟨?_, ?_⟩, ?_⟩
    · rintro ⟨n, hn, hp⟩
      exact absurd hp (by simpa using hnone n hn)
    · rintro ⟨r, hr⟩
      simp [extract_members, hfind] at hr
    · intro _
      simp [extract_members, hfind]
  | some m =>
    have hpm := List.find?_some hfind
    have hmem := List.mem_of_find?_eq_some hfind
    refine ⟨⟨?_, ?_⟩, ?_⟩
    · intro _
      refine ⟨([(key, pfx ++ tag ++ ".txt")],
        fsWrite st (pfx ++ tag ++ ".txt")
          ((fsLookup entries m).getD [])), ?_⟩
      simp [extract_members, hfind]
    · intro _
      exact ⟨m, hmem, hpm⟩
    · intro hall
      exact absurd hpm (by simp [hall m hmem])

/-- C4 witness: the amended theorem applied to a one-member archive, in
the successful direction for prefix "as" and in the failing direction for
prefix "zz". -/
theorem C4_witness :
    (∃ r, extract_members [("as1.txt", [50])] "z.zip" [] [("k", "as")]
      "250903" = Except.ok r) ∧
    extract_members [("as1.txt", [50])] "z.zip" [] [("k", "zz")] "250903" =
      Except.error ("Could not find zz*.txt in ZIP z.zip", []) :=
  ⟨(C4_match_iff [("as1.txt", [50])] "z.zip" [] "k" "as" "250903").1.mp
      ⟨"as1.txt", by decide, by decide⟩,
   (C4_match_iff [("as1.txt", [50])] "z.zip" [] "k" "zz" "250903").2
      (by decide)⟩

/-! ### C9: first match wins when several members match -/

/-- C9: when the archive name list contains several entries matching the
prefix, extraction succeeds and copies exactly the first matching entry
in name-list order, ignoring the later matches. -/
theorem C9_first_match (l1 l2 : List (String × List Nat)) (m : String)
    (c : List Nat) (zn : String) (st : FileMap) (key pfx tag : String)
    (h1 : ∀ p ∈ l1, memberMatches pfx p.1 = false)
    (hm : memberMatches pfx m = true)
    (_h2 : ∃ p ∈ l2, memberMatches pfx p.1 = true) :
    extract_members (l1 ++ (m, c) :: l2) zn st [(key, pfx)] tag =
      Except.ok ([(key, pfx ++ tag ++ ".txt")],
        fsWrite st (pfx ++ tag ++ ".txt") c) := by
  have hfind : ((l1 ++ (m, c) :: l2).map Prod.fst).find?
      (memberMatches pfx) = some m := by
    rw [List.map_append, List.map_cons]
    exact find?_append_first _ _ _ _
      (fun y hy => by
        rcases List.mem_map.mp hy with ⟨p, hp, hpy⟩
        exact hpy ▸ h1 p hp) hm
  have hlook : fsLookup (l1 ++ (m, c) :: l2) m = some c :=
    fsLookup_append_first l1 m c l2 (fun p hp he => by
      have := h1 p hp
      rw [he, hm] at this
      cases this)
  exact extract_single _ zn st key pfx tag m c hfind hlook

/-- C9 witness: the theorem applied to an archive holding a non-matching
member followed by two matching members bq1.txt and bq2.txt; the first
one is extracted. -/
theorem C9_witness :
    extract_members
        [("readme.md", [1]), ("bq1.txt", [65]), ("bq2.txt", [66])]
        "z.zip" [] [("bq", "bq")] "250903" =
      Except.ok ([("bq", "bq" ++ "250903" ++ ".txt")],
        fsWrite [] ("bq" ++ "250903" ++ ".txt") [65]) :=
  C9_first_match [("readme.md", [1])] [("bq2.txt", [66])] "bq1.txt" [65]
    "z.zip" [] "bq" "bq" "250903" (by decide) (by decide)
    ⟨("bq2.txt", [66]), by decide, by decide⟩

/-! ### Fallback-loop helper lemmas -/

theorem fsRemove_fsWrite_self (m : FileMap) (k : String) (v : List Nat) :
    fsRemove (fsWrite m k v) k = fsRemove m k := by
  simp [fsRemove, fsWrite, List.filter_cons, List.filter_filter]

theorem attempt_fail_step (st : FileMap) (tmp fin : String) (min_in : Nat)
    (r : Option (List Nat)) (rest : List (Option (List Nat)))
    (h : attempt_fails min_in r = true) :
    try_in_urls st tmp fin min_in (r :: rest) =
      try_in_urls (fsRemove st tmp) tmp fin min_in rest := by
  cases r with
  | none => simp [try_in_urls, download_to]
  | some bs =>
    simp only [attempt_fails, Bool.or_eq_true, decide_eq_true_eq] at h
    by_cases hh : is_probably_html (bs.take 512) = true
    · simp [try_in_urls, download_to, hh, fsRemove_fsWrite_self]
    · have hsz : bs.length < min_in := by
        rcases h with h | h
        · exact absurd h hh
        · exact h
      simp [try_in_urls, download_to, hh, fsLookup_fsWrite_self, hsz,
        fsRemove_fsWrite_self]

theorem attempt_ok_step (st : FileMap) (tmp fin : String) (min_in : Nat)
    (r : Option (List Nat)) (h : attempt_fails min_in r = false) :
    ∃ bs, r = some bs ∧ ∀ rest,
      try_in_urls st tmp fin min_in (r :: rest) =
        Except.ok (fsRename (fsWrite st tmp bs) tmp fin) := by
  cases r with
  | none => cases h
  | some bs =>
    simp only [attempt_fails, Bool.or_eq_false_iff, decide_eq_false_iff_not]
      at h
    refine ⟨bs, rfl, fun rest => ?_⟩
    simp [try_in_urls, download_to, h.1, fsLookup_fsWrite_self, h.2]

theorem fsRename_of_lookup (m : FileMap) (src dst : String) (v : List Nat)
    (h : fsLookup m src = some v) :
    fsRename m src dst = fsWrite (fsRemove m src) dst v := by
  simp [fsRename, h]

/-! ### C2: standalone-file fallback semantics -/

/-- C2: the loop tries the candidate responses in order. If both attempts
fail (transport error, HTML sniff, or size below threshold), the loop
raises the both-URLs-failed error and neither the temp file nor the
final standalone file exists afterwards (the final file assuming it did
not pre-exist). On a first attempt that downloads and passes the size
threshold, the temp file is renamed to the final path, the second
candidate is never consulted, and afterwards the final file holds the
downloaded body while the temp file is gone. If only the second attempt
succeeds, the loop still ends with the final file present and the temp
file gone. -/
theorem C2_fallback (st : FileMap) (tmp fin : String) (min_in : Nat)
    (r1 r2 : Option (List Nat)) (hne : tmp ≠ fin) :
    (attempt_fails min_in r1 = true → attempt_fails min_in r2 = true →
      ∃ st2, try_in_urls st tmp fin min_in [r1, r2] =
          Except.error
            ("Failed to download IN via both primary and fallback URLs.",
              st2) ∧
        fsLookup st2 tmp = none ∧
        (fsLookup st fin = none → fsLookup st2 fin = none)) ∧
    (attempt_fails min_in r1 = false →
      ∃ bs, r1 = some bs ∧
        (∀ r2', try_in_urls st tmp fin min_in [r1, r2'] =
          Except.ok (fsRename (fsWrite st tmp bs) tmp fin)) ∧
        fsLookup (fsRename (fsWrite st tmp bs) tmp fin) fin = some bs ∧
        fsLookup (fsRename (fsWrite st tmp bs) tmp fin) tmp = none) ∧
    (attempt_fails min_in r1 = true → attempt_fails min_in r2 = false →
      ∃ bs2 st2, r2 = some bs2 ∧
        try_in_urls st tmp fin min_in [r1, r2] = Except.ok st2 ∧
        fsLookup st2 fin = some bs2 ∧ fsLookup st2 tmp = none) := by
  refine ⟨?_, ?_, ?_⟩
  · intro h1 h2
    rw [attempt_fail_step st tmp fin min_in r1 [r2] h1,
      attempt_fail_step _ tmp fin min_in r2 [] h2]
    refine ⟨fsRemove (fsRemove st tmp) tmp, rfl, ?_, ?_⟩
    · exact fsLookup_fsRemove_self _ tmp
    · intro hf
      rw [fsLookup_fsRemove_ne _ tmp fin hne,
        fsLookup_fsRemove_ne _ tmp fin hne]
      exact hf
  · intro h1
    obtain ⟨bs, hbs, hrun⟩ := attempt_ok_step st tmp fin min_in r1 h1
    subst hbs
    refine ⟨bs, rfl, fun r2' => hrun [r2'], ?_, ?_⟩
    · rw [fsRename_of_lookup _ tmp fin bs (fsLookup_fsWrite_self st tmp bs)]
      exact fsLookup_fsWrite_self _ fin bs
    · rw [fsRename_of_lookup _ tmp fin bs (fsLookup_fsWrite_self st tmp bs),
        fsLookup_fsWrite_ne _ fin tmp bs (fun h => hne h.symm)]
      exact fsLookup_fsRemove_self _ tmp
  · intro h1 h2
    rw [attempt_fail_step st tmp fin min_in r1 [r2] h1]
    obtain ⟨bs2, hbs, hrun⟩ :=
      attempt_ok_step (fsRemove st tmp) tmp fin min_in r2 h2
    refine ⟨bs2, fsRename (fsWrite (fsRemove st tmp) tmp bs2) tmp fin,
      hbs, by rw [hbs] at hrun ⊢; exact hrun [], ?_, ?_⟩
    · rw [fsRename_of_lookup _ tmp fin bs2 (fsLookup_fsWrite_self _ tmp bs2)]
      exact fsLookup_fsWrite_self _ fin bs2
    · rw [fsRename_of_lookup _ tmp fin bs2 (fsLookup_fsWrite_self _ tmp bs2),
        fsLookup_fsWrite_ne _ fin tmp bs2 (fun h => hne h.symm)]
      exact fsLookup_fsRemove_self _ tmp

/-- C2 witness: the theorem applied with both candidates failing (both
transport errors) and with only the fallback succeeding with body 65. -/
theorem C2_witness :
    (∃ st2, try_in_urls [] "in250903.txt.part" "in250903.txt" 1
        [none, none] =
      Except.error
        ("Failed to download IN via both primary and fallback URLs.",
          st2) ∧
      fsLookup st2 "in250903.txt.part" = none ∧
      fsLookup st2 "in250903.txt" = none) ∧
    (∃ bs2 st2, (some [65] : Option (List Nat)) = some bs2 ∧
      try_in_urls [] "in250903.txt.part" "in250903.txt" 1
        [none, some [65]] = Except.ok st2 ∧
      fsLookup st2 "in250903.txt" = some bs2 ∧
      fsLookup st2 "in250903.txt.part" = none) := by
  have hne : ("in250903.txt.part" : String) ≠ "in250903.txt" := by decide
  constructor
  · obtain ⟨st2, ha, hb, hc⟩ :=
      (C2_fallback [] "in250903.txt.part" "in250903.txt" 1 none none
        hne).1 rfl rfl
    exact ⟨st2, ha, hb, hc rfl⟩
  · exact (C2_fallback [] "in250903.txt.part" "in250903.txt" 1 none
      (some [65]) hne).2.2 rfl (by decide)

/-! ### Orchestrator helper lemmas -/

theorem lookup_bq_pair (x y : String) :
    (List.lookup "bq" [("bq", x), ("as", y)]).getD "" = x := rfl

theorem lookup_as_pair (x y : String) :
    (List.lookup "as" [("bq", x), ("as", y)]).getD "" = y := rfl

theorem bq_ne_as (t : String) :
    ("bq" ++ t ++ ".txt" : String) ≠ "as" ++ t ++ ".txt" := by
  intro h
  have h3 : (some 'b' : Option Char) = some 'a' :=
    congrArg (fun s : String => s.data.head?) h
  cases h3

theorem bq_ne_in (t : String) :
    ("bq" ++ t ++ ".txt" : String) ≠ "in" ++ t ++ ".txt" := by
  intro h
  have h3 : (some 'b' : Option Char) = some 'i' :=
    congrArg (fun s : String => s.data.head?) h
  cases h3

theorem as_ne_in (t : String) :
    ("as" ++ t ++ ".txt" : String) ≠ "in" ++ t ++ ".txt" := by
  intro h
  have h3 : (some 'a' : Option Char) = some 'i' :=
    congrArg (fun s : String => s.data.head?) h
  cases h3

/-- On success the two-key extraction of main returns exactly the two
staged paths bq<tag>.txt and as<tag>.txt under their logical keys. -/
theorem extract_two_shape (entries : List (String × List Nat)) (zn : String)
    (st : FileMap) (tag : String) (out : List (String × String))
    (st2 : FileMap)
    (h : extract_members entries zn st [("bq", "bq"), ("as", "as")] tag =
      Except.ok (out, st2)) :
    out = [("bq", "bq" ++ tag ++ ".txt"), ("as", "as" ++ tag ++ ".txt")] := by
  cases hb : (entries.map Prod.fst).find? (memberMatches "bq") with
  | none => simp [extract_members, hb] at h
  | some m1 =>
    cases ha : (entries.map Prod.fst).find? (memberMatches "as") with
    | none => simp [extract_members, hb, ha] at h
    | some m2 =>
      simp only [extract_members, hb, ha] at h
      rw [Except.ok.injEq, Prod.mk.injEq] at h
      exact h.1.symm

/-! ### C1: all-or-none run outcome -/

/-- C1: every run either exits 0 with all three output files
(bq<tag>.txt, as<tag>.txt, in<tag>.txt) present in the output directory,
or exits non-zero with the output directory exactly as it was before the
run (no file promoted; staging may retain artifacts). -/
theorem C1_all_or_none (env : Env) (fs0 : FS) :
    ((main env fs0).1 ≠ 0 → (main env fs0).2.output = fs0.output) ∧
    ((main env fs0).1 = 0 → ∃ tag,
      resolve_date_tag env.cli_date env.yy env.mm env.dd = Except.ok tag ∧
      (fsLookup (main env fs0).2.output
        ("bq" ++ tag ++ ".txt")).isSome = true ∧
      (fsLookup (main env fs0).2.output
        ("as" ++ tag ++ ".txt")).isSome = true ∧
      (fsLookup (main env fs0).2.output
        ("in" ++ tag ++ ".txt")).isSome = true) := by
  simp only [main]
  split
  · exact ⟨fun _ => rfl, fun h0 => absurd h0 one_ne_zero⟩
  next tag heq =>
    split
    · exact ⟨fun _ => rfl, fun h0 => by simp at h0⟩
    · split
      · exact ⟨fun _ => rfl, fun h0 => absurd h0 one_ne_zero⟩
      · split
        · exact ⟨fun _ => rfl, fun h0 => absurd h0 one_ne_zero⟩
        · split
          · exact ⟨fun _ => rfl, fun h0 => absurd h0 one_ne_zero⟩
          · split
            · exact ⟨fun _ => rfl, fun h0 => absurd h0 one_ne_zero⟩
            next out st4 heqx =>
              split
              · exact ⟨fun _ => rfl, fun h0 => absurd h0 one_ne_zero⟩
              · refine ⟨fun hne => absurd rfl hne, fun _ => ?_⟩
                have hshape := extract_two_shape _ _ _ _ _ _ heqx
                subst hshape
                refine ⟨tag, heq, ?_, ?_, ?_⟩ <;>
                  simp only [promote, lookup_bq_pair, lookup_as_pair]
                · rw [fsLookup_fsWrite_ne _ _ _ _ (Ne.symm (bq_ne_in tag)),
                    fsLookup_fsWrite_ne _ _ _ _ (Ne.symm (bq_ne_as tag)),
                    fsLookup_fsWrite_self]
                  rfl
                · rw [fsLookup_fsWrite_ne _ _ _ _ (Ne.symm (as_ne_in tag)),
                    fsLookup_fsWrite_self]
                  rfl
                · rw [fsLookup_fsWrite_self]
                  rfl

/-- C1 witness: the theorem applied to the fully successful environment;
the run exits 0 and all three files are in the output directory. -/
theorem C1_witness :
    (main envOkRun fsEmpty).1 = 0 ∧
    ∃ tag, resolve_date_tag envOkRun.cli_date envOkRun.yy envOkRun.mm
        envOkRun.dd = Except.ok tag ∧
      (fsLookup (main envOkRun fsEmpty).2.output
        ("bq" ++ tag ++ ".txt")).isSome = true ∧
      (fsLookup (main envOkRun fsEmpty).2.output
        ("as" ++ tag ++ ".txt")).isSome = true ∧
      (fsLookup (main envOkRun fsEmpty).2.output
        ("in" ++ tag ++ ".txt")).isSome = true :=
  ⟨rfl, (C1_all_or_none envOkRun fsEmpty).2 rfl⟩

/-! ### C7: exit-code mapping -/

/-- C7 counterexample: the claim says that in every non-zero case the
triggering exception is logged to both the per-run log file and the
console. A malformed date override raises before setup_logger runs
(line 144 precedes line 157), so the run exits 1 without the per-run log
file ever being created, and nothing is logged to it. -/
theorem C7_counterexample :
    (main envBadDate fsEmpty).1 = 1 ∧
    (main envBadDate fsEmpty).2.logCreated = false :=
  ⟨rfl, rfl⟩

/-- C7 (amended): the process exits 0 on success, 2 exactly when date
resolution succeeds and the session snapshot is missing (that path logs
the error to the already-created per-run log file), and 1 on any other
failure; a malformed date exits 1 with the filesystem untouched and in
particular no per-run log file created, so the triggering exception is
printed to the console only. -/
theorem C7_exit_codes (env : Env) (fs0 : FS) :
    ((main env fs0).1 = 0 ∨ (main env fs0).1 = 1 ∨ (main env fs0).1 = 2) ∧
    ((main env fs0).1 = 2 ↔
      (∃ t, resolve_date_tag env.cli_date env.yy env.mm env.dd =
        Except.ok t) ∧ env.cookiesExist = false) ∧
    ((∃ e, resolve_date_tag env.cli_date env.yy env.mm env.dd =
        Except.error e) →
      (main env fs0).1 = 1 ∧ (main env fs0).2 = fs0) ∧
    ((main env fs0).1 = 2 → (main env fs0).2.logCreated = true) := by
  simp only [main]
  split
  next e heq =>
    refine ⟨Or.inr (Or.inl rfl), ⟨fun h => by simp at h, ?_⟩,
      fun _ => ⟨rfl, rfl⟩, fun h => by simp at h⟩
    rintro ⟨⟨t, ht⟩, -⟩
    rw [heq] at ht
    exact Except.noConfusion ht
  next tag heq =>
    have hdate : ¬ ∃ e, resolve_date_tag env.cli_date env.yy env.mm
        env.dd = Except.error e := by
      rintro ⟨e, he⟩
      rw [heq] at he
      exact Except.noConfusion he
    split
    next hc =>
      exact ⟨Or.inr (Or.inr rfl),
        ⟨fun _ => ⟨⟨tag, heq⟩, by simpa using hc⟩, fun _ => rfl⟩,
        fun hex => absurd hex hdate, fun _ => rfl⟩
    next hc =>
      have hcc : env.cookiesExist = true := by simpa using hc
      split
      · exact ⟨Or.inr (Or.inl rfl),
          ⟨fun h => by simp at h, fun hr => absurd hr.2 (by simp [hcc])⟩,
          fun hex => absurd hex hdate, fun h => by simp at h⟩
      · split
        · exact ⟨Or.inr (Or.inl rfl),
            ⟨fun h => by simp at h, fun hr => absurd hr.2 (by simp [hcc])⟩,
            fun hex => absurd hex hdate, fun h => by simp at h⟩
        · split
          · exact ⟨Or.inr (Or.inl rfl),
              ⟨fun h => by simp at h, fun hr => absurd hr.2 (by simp [hcc])⟩,
              fun hex => absurd hex hdate, fun h => by simp at h⟩
          · split
            · exact ⟨Or.inr (Or.inl rfl),
                ⟨fun h => by simp at h, fun hr => absurd hr.2 (by simp [hcc])⟩,
                fun hex => absurd hex hdate, fun h => by simp at h⟩
            · split
              · exact ⟨Or.inr (Or.inl rfl),
                  ⟨fun h => by simp at h, fun hr => absurd hr.2 (by simp [hcc])⟩,
                  fun hex => absurd hex hdate, fun h => by simp at h⟩
              · exact ⟨Or.inl rfl,
                  ⟨fun h => by simp at h, fun hr => absurd hr.2 (by simp [hcc])⟩,
                  fun hex => absurd hex hdate, fun h => by simp at h⟩

/-- C7 witness: the amended theorem applied to the missing-cookies
environment (exit 2) and to the malformed-date environment (exit 1 with
the filesystem, hence the log state, untouched). -/
theorem C7_witness :
    (main envNoCookies fsEmpty).1 = 2 ∧
    ((main envBadDate fsEmpty).1 = 1 ∧ (main envBadDate fsEmpty).2 =
      fsEmpty) :=
  ⟨(C7_exit_codes envNoCookies fsEmpty).2.1.mpr ⟨⟨"250903", rfl⟩, rfl⟩,
   (C7_exit_codes envBadDate fsEmpty).2.2.1
     ⟨"--date must be YYMMDD, e.g., 250903", rfl⟩⟩

end Dibbs
